import Mathlib

/-!
Verification of the agent-sphere core: the tool-calling loop and action
parser (`base/agent_framework.py`), the LLM router failover
(`llm/llm_router.py`), and the sequential orchestrator's plan fallback and
agent resolution (`agents/planning_agent.py`), shallowly embedded in Lean.

JSON values are modelled by `JVal`; `loads` models Python's `json.loads`
restricted to integer numerals (no input under consideration uses
fractional or exponent literals), and `dumps` models `json.dumps` with its
default separators and ASCII escaping (characters above the BMP aside).
Python regular-expression searches used by the code are modelled by direct
leftmost-match scanning functions, one per pattern.
-/

namespace AgentSphere

/-- The literal `{` character, named to keep brace characters out of
string and character literals. -/
def lbrace : Char := '\x7b'

/-- The literal `}` character. -/
def rbrace : Char := '\x7d'

/-- The single-quote character `'`. -/
def squote : Char := Char.ofNat 39

/-- The double-quote character. -/
def dquote : Char := '"'

/-- Python `\w` over ASCII: letters, digits, underscore. -/
def isWordChar (c : Char) : Bool := c.isAlpha || c.isDigit || c = '_'

/-- Python `\s` over ASCII: space, tab, newline, carriage return,
form feed, vertical tab. -/
def isSpaceChar (c : Char) : Bool :=
  c = ' ' || c = '\t' || c = '\n' || c = '\r' || c = '\x0b' || c = '\x0c'

/-- JSON whitespace as accepted by Python's `json` module between tokens. -/
def jsonWs (c : Char) : Bool := c = ' ' || c = '\t' || c = '\n' || c = '\r'

/-- A JSON value.  Numbers are modelled as integers (see module header). -/
inductive JVal where
  | jnull
  | jbool (b : Bool)
  | jnum (n : Int)
  | jstr (s : String)
  | jarr (elems : List JVal)
  | jobj (fields : List (String × JVal))

/-- Python truthiness of a JSON-decoded value (`if json_obj and ...`):
`None`, `False`, `0`, `""`, `[]` and the empty dict are falsy. -/
def JVal.truthy : JVal → Bool
  | .jnull => false
  | .jbool b => b
  | .jnum n => n != 0
  | .jstr s => !s.isEmpty
  | .jarr l => !l.isEmpty
  | .jobj l => !l.isEmpty

/-- Python dict assignment `d[k] = v` on an insertion-ordered dict:
replace the value in place when the key exists (keeping the key's original
position), append otherwise. -/
def dictInsert {α : Type} : List (String × α) → String → α → List (String × α)
  | [], k, v => [(k, v)]
  | (k', v') :: rest, k, v =>
      if k' = k then (k, v) :: rest else (k', v') :: dictInsert rest k v

/-- Python `d.get(k)` on an insertion-ordered dict: `none` models Python
`None` for a missing key. -/
def jLookup {α : Type} : List (String × α) → String → Option α
  | [], _ => none
  | (k', v') :: rest, k => if k' = k then some v' else jLookup rest k

/-- `d.get(k)` on a JSON object value. -/
def JVal.get? : JVal → String → Option JVal
  | .jobj fs, k => jLookup fs k
  | _, _ => none

/-- `d.get(k, dflt)` on a JSON object value. -/
def JVal.getD (v : JVal) (k : String) (dflt : JVal) : JVal :=
  match v.get? k with
  | some w => w
  | none => dflt

/-- `k in d` on a JSON object value. -/
def JVal.hasKey (v : JVal) (k : String) : Bool :=
  (v.get? k).isSome

/-- Match a literal character sequence at the head of the input,
returning the remainder on success. -/
def matchLit : List Char → List Char → Option (List Char)
  | [], cs => some cs
  | _ :: _, [] => none
  | p :: ps, c :: cs => if p = c then matchLit ps cs else none

/-- One hexadecimal digit (either case), as in JSON `\uXXXX` escapes,
read off the character code: `0`–`9` are codes 48–57, `A`–`F` codes 65–70
(value = code − 55), `a`–`f` codes 97–102 (value = code − 87). -/
def hexDigit? (c : Char) : Option Nat :=
  let n := c.toNat
  if 48 ≤ n ∧ n ≤ 57 then some (n - 48)
  else if 65 ≤ n ∧ n ≤ 70 then some (n - 55)
  else if 97 ≤ n ∧ n ≤ 102 then some (n - 87)
  else none

/-- Parse the body of a JSON string literal (the opening quote already
consumed): returns the decoded characters and the remainder after the
closing quote.  Escapes and the strict-mode ban on raw control characters
follow Python's `json` module. -/
def parseStringLit : Nat → List Char → Option (List Char × List Char)
  | 0, _ => none
  | _ + 1, [] => none
  | fuel + 1, c :: cs =>
    if c = dquote then some ([], cs)
    else if c = '\\' then
      match cs with
      | [] => none
      | e :: cs2 =>
        if e = dquote then
          (parseStringLit fuel cs2).map (fun (s, r) => (dquote :: s, r))
        else if e = '\\' then
          (parseStringLit fuel cs2).map (fun (s, r) => ('\\' :: s, r))
        else if e = '/' then
          (parseStringLit fuel cs2).map (fun (s, r) => ('/' :: s, r))
        else if e = 'b' then
          (parseStringLit fuel cs2).map (fun (s, r) => ('\x08' :: s, r))
        else if e = 'f' then
          (parseStringLit fuel cs2).map (fun (s, r) => ('\x0c' :: s, r))
        else if e = 'n' then
          (parseStringLit fuel cs2).map (fun (s, r) => ('\n' :: s, r))
        else if e = 'r' then
          (parseStringLit fuel cs2).map (fun (s, r) => ('\r' :: s, r))
        else if e = 't' then
          (parseStringLit fuel cs2).map (fun (s, r) => ('\t' :: s, r))
        else if e = 'u' then
          match cs2 with
          | h1 :: h2 :: h3 :: h4 :: cs3 =>
            match hexDigit? h1, hexDigit? h2, hexDigit? h3, hexDigit? h4 with
            | some a, some b, some c', some d =>
              let n := ((a * 16 + b) * 16 + c') * 16 + d
              if n.isValidChar then
                (parseStringLit fuel cs3).map (fun (s, r) => (Char.ofNat n :: s, r))
              else none
            | _, _, _, _ => none
          | _ => none
        else none
    else if c.toNat < 0x20 then none
    else (parseStringLit fuel cs).map (fun (s, r) => (c :: s, r))

/-- Parse a JSON integer numeral: optional minus sign, then digits with no
leading zero (as rejected by Python's `json`). -/
def parseNum (cs : List Char) : Option (Int × List Char) :=
  let (neg, cs1) :=
    match cs with
    | '-' :: rest => (true, rest)
    | _ => (false, cs)
  let digits := cs1.takeWhile Char.isDigit
  let rest := cs1.drop digits.length
  match digits with
  | [] => none
  | ['0'] => some (0, rest)
  | '0' :: _ :: _ => none
  | _ =>
    let n : Nat := digits.foldl (fun acc c => acc * 10 + (c.toNat - '0'.toNat)) 0
    some (if neg then -(n : Int) else (n : Int), rest)

/-- The state of the recursive-descent JSON parser: a value, the body of
an object or array just after its opening bracket, or the member/item loop
with its accumulator. -/
inductive PMode where
  | value
  | objBody
  | members (acc : List (String × JVal))
  | arrBody
  | items (acc : List JVal)

/-- Fuel-based JSON parser (the model of `json.loads`'s grammar), written
as a single structural recursion on the fuel so that it reduces
definitionally.  Duplicate object keys overwrite, as Python's dict
construction does. -/
def parseRun : Nat → PMode → List Char → Option (JVal × List Char)
  | 0, _, _ => none
  | fuel + 1, .value, cs =>
    let cs := cs.dropWhile jsonWs
    match cs with
    | [] => none
    | c :: rest =>
      if c = dquote then
        (parseStringLit (rest.length + 1) rest).map
          (fun (s, r) => (JVal.jstr (String.mk s), r))
      else if c = lbrace then
        parseRun fuel .objBody rest
      else if c = '[' then
        parseRun fuel .arrBody rest
      else if c = 't' then
        (matchLit ['r', 'u', 'e'] rest).map (fun r => (JVal.jbool true, r))
      else if c = 'f' then
        (matchLit ['a', 'l', 's', 'e'] rest).map (fun r => (JVal.jbool false, r))
      else if c = 'n' then
        (matchLit ['u', 'l', 'l'] rest).map (fun r => (JVal.jnull, r))
      else if c = '-' || c.isDigit then
        (parseNum (c :: rest)).map (fun (n, r) => (JVal.jnum n, r))
      else none
  | fuel + 1, .objBody, cs =>
    let cs := cs.dropWhile jsonWs
    match cs with
    | [] => none
    | c :: rest =>
      if c = rbrace then some (JVal.jobj [], rest)
      else parseRun fuel (.members []) (c :: rest)
  | fuel + 1, .members acc, cs =>
    let cs := cs.dropWhile jsonWs
    match cs with
    | [] => none
    | c :: rest =>
      if c = dquote then
        match parseStringLit (rest.length + 1) rest with
        | none => none
        | some (k, r1) =>
          match (r1.dropWhile jsonWs) with
          | ':' :: r2 =>
            match parseRun fuel .value r2 with
            | none => none
            | some (v, r3) =>
              let acc := dictInsert acc (String.mk k) v
              match (r3.dropWhile jsonWs) with
              | ',' :: r4 => parseRun fuel (.members acc) r4
              | d :: r4 =>
                if d = rbrace then some (JVal.jobj acc, r4) else none
              | [] => none
          | _ => none
      else none
  | fuel + 1, .arrBody, cs =>
    let cs := cs.dropWhile jsonWs
    match cs with
    | ']' :: rest => some (JVal.jarr [], rest)
    | cs' => parseRun fuel (.items []) cs'
  | fuel + 1, .items acc, cs =>
    match parseRun fuel .value cs with
    | none => none
    | some (v, r1) =>
      match (r1.dropWhile jsonWs) with
      | ',' :: r2 => parseRun fuel (.items (v :: acc)) r2
      | ']' :: r2 => some (JVal.jarr (v :: acc).reverse, r2)
      | _ => none

/-- Model of `json.loads`: parse one value and require only whitespace to
remain.  The fuel bounds the parser's recursion depth, which one value per
four input characters (plus slack) safely covers. -/
def loads (s : String) : Option JVal :=
  match parseRun (4 * s.length + 64) .value s.toList with
  | some (v, rest) => if (rest.dropWhile jsonWs).isEmpty then some v else none
  | none => none

/-- Hex digit characters used by the serializer, lowercase as emitted by
`json.dumps`. -/
def hexChar (n : Nat) : Char :=
  if n < 10 then Char.ofNat ('0'.toNat + n) else Char.ofNat ('a'.toNat + n - 10)

/-- Four-digit lowercase hex rendering for `\uXXXX` escapes. -/
def hex4 (n : Nat) : String :=
  String.mk [hexChar (n / 4096 % 16), hexChar (n / 256 % 16),
             hexChar (n / 16 % 16), hexChar (n % 16)]

/-- Escape one character as `json.dumps` does with its default
`ensure_ascii=True` (characters above the BMP aside). -/
def escapeChar (c : Char) : String :=
  if c = dquote then "\\\""
  else if c = '\\' then "\\\\"
  else if c = '\n' then "\\n"
  else if c = '\t' then "\\t"
  else if c = '\r' then "\\r"
  else if c = '\x08' then "\\b"
  else if c = '\x0c' then "\\f"
  else if c.toNat < 0x20 || c.toNat > 0x7e then "\\u" ++ hex4 c.toNat
  else String.singleton c

/-- Serialize a string with quotes and escapes. -/
def dumpStr (s : String) : String :=
  "\"" ++ (s.toList.map escapeChar).foldl (· ++ ·) "" ++ "\""

mutual

/-- Model of `json.dumps` with its default separators `", "` and `": "`. -/
def dumps : JVal → String
  | .jnull => "null"
  | .jbool b => if b then "true" else "false"
  | .jnum n => toString n
  | .jstr s => dumpStr s
  | .jarr xs => "[" ++ dumpElems xs ++ "]"
  | .jobj fs => String.singleton lbrace ++ dumpFields fs ++ String.singleton rbrace

/-- Comma-separated array elements. -/
def dumpElems : List JVal → String
  | [] => ""
  | [x] => dumps x
  | x :: y :: xs => dumps x ++ ", " ++ dumpElems (y :: xs)

/-- Comma-separated object members. -/
def dumpFields : List (String × JVal) → String
  | [] => ""
  | [(k, v)] => dumpStr k ++ ": " ++ dumps v
  | (k, v) :: f :: fs => dumpStr k ++ ": " ++ dumps v ++ ", " ++ dumpFields (f :: fs)

end

/-! ### Models of the individual `re` searches used by the code

Each Python pattern is modelled by a function that attempts the pattern at
one position, and a scanner that tries each position left to right —
`re.search`'s leftmost-match rule.  Backtracking never helps these
patterns (a maximal `\w+` or `\s*` run is never shortened usefully, since
the following required character is not of the same class), so the
at-one-position functions are deterministic. -/

/-- Attempt `TOOL:\s*(\w+)` at the head of the input; the capture is the
word run. -/
def toolAt (cs : List Char) : Option String :=
  match matchLit ("TOOL:".toList) cs with
  | none => none
  | some rest =>
    let w := (rest.dropWhile isSpaceChar).takeWhile isWordChar
    if w.isEmpty then none else some (String.mk w)

/-- `re.search(r'TOOL:\s*(\w+)', s)`: leftmost match's capture. -/
def searchTool : List Char → Option String
  | [] => none
  | c :: cs =>
    match toolAt (c :: cs) with
    | some w => some w
    | none => searchTool cs

/-- Lazy `.*?q` under `re.DOTALL`: the characters before the first `q`,
and the remainder after it. -/
def lazyUntilAny (q : Char) : List Char → Option (List Char × List Char)
  | [] => none
  | c :: cs =>
    if c = q then some ([], cs)
    else
      match lazyUntilAny q cs with
      | some (v, rest) => some (c :: v, rest)
      | none => none

/-- Lazy `.*?q` without `re.DOTALL`: as above but failing if a newline
comes first. -/
def lazyUntil (q : Char) : List Char → Option (List Char × List Char)
  | [] => none
  | c :: cs =>
    if c = q then some ([], cs)
    else if c = '\n' then none
    else
      match lazyUntil q cs with
      | some (v, rest) => some (c :: v, rest)
      | none => none

/-- Attempt `PARAMS:\s*({.*?})` (with `re.DOTALL`) at the head of the
input; the capture runs from the brace to the first closing brace. -/
def paramsAt (cs : List Char) : Option String :=
  match matchLit ("PARAMS:".toList) cs with
  | none => none
  | some rest =>
    match rest.dropWhile isSpaceChar with
    | [] => none
    | c :: rest2 =>
      if c = lbrace then
        match lazyUntilAny rbrace rest2 with
        | some (v, _) => some (String.mk (lbrace :: v ++ [rbrace]))
        | none => none
      else none

/-- `re.search(r'PARAMS:\s*({.*?})', s, re.DOTALL)`: leftmost match's
capture. -/
def searchParams : List Char → Option String
  | [] => none
  | c :: cs =>
    match paramsAt (c :: cs) with
    | some w => some w
    | none => searchParams cs

/-- Attempt `(\w+)\((.*?)\)` at the head of the input: a nonempty word
run, an opening parenthesis, then the lazily-matched arguments up to the
first closing parenthesis on the same line. -/
def funcCallAt (cs : List Char) : Option (String × String) :=
  let name := cs.takeWhile isWordChar
  if name.isEmpty then none
  else
    match cs.drop name.length with
    | '(' :: rest =>
      match lazyUntil ')' rest with
      | some (args, _) => some (String.mk name, String.mk args)
      | none => none
    | _ => none

/-- `re.search(r'(\w+)\((.*?)\)', s)`: leftmost match's captures. -/
def searchFuncCall : List Char → Option (String × String)
  | [] => none
  | c :: cs =>
    match funcCallAt (c :: cs) with
    | some r => some r
    | none => searchFuncCall cs

/-- Attempt `(\w+)\s*=\s*(["\'])(.*?)\2` at the head of the input,
returning (key, value, remainder after the match). -/
def kvAt (cs : List Char) : Option (String × String × List Char) :=
  let name := cs.takeWhile isWordChar
  if name.isEmpty then none
  else
    match (cs.drop name.length).dropWhile isSpaceChar with
    | '=' :: r1 =>
      match r1.dropWhile isSpaceChar with
      | q :: r2 =>
        if q = dquote || q = squote then
          match lazyUntil q r2 with
          | some (v, rest) => some (String.mk name, String.mk v, rest)
          | none => none
        else none
      | [] => none
    | _ => none

/-- `re.finditer` of the key/value pattern: successive non-overlapping
leftmost matches.  The fuel is the input length; every step consumes at
least one character. -/
def findKVs : Nat → List Char → List (String × String)
  | 0, _ => []
  | _ + 1, [] => []
  | fuel + 1, c :: cs =>
    match kvAt (c :: cs) with
    | some (k, v, rest) => (k, v) :: findKVs fuel rest
    | none => findKVs fuel cs

/-- Attempt `\(([a-f0-9]{8})\)` at the head of the input. -/
def parenIdAt (cs : List Char) : Option String :=
  match cs with
  | '(' :: rest =>
    let h := rest.take 8
    if h.length = 8 && h.all (fun c => c.isDigit || ('a' ≤ c && c ≤ 'f')) then
      match rest.drop 8 with
      | ')' :: _ => some (String.mk h)
      | _ => none
    else none
  | _ => none

/-- `re.search(r'\(([a-f0-9]{8})\)', s)`: leftmost match's capture. -/
def searchParenId : List Char → Option String
  | [] => none
  | c :: cs =>
    match parenIdAt (c :: cs) with
    | some r => some r
    | none => searchParenId cs

/-- `re.search(r'\{.*\}', s, re.DOTALL)` (greedy): the substring from the
first opening brace to the last closing brace of the whole input, provided
that closing brace comes after the opening one. -/
def searchBraceGreedy (cs : List Char) : Option (List Char) :=
  match cs.dropWhile (· ≠ lbrace) with
  | [] => none
  | b :: tail =>
    match tail.reverse.dropWhile (· ≠ rbrace) with
    | [] => none
    | revToBrace => some (b :: revToBrace.reverse)

/-! ### The agent framework (`base/agent_framework.py`)

The LLM is modelled as an oracle `Model`: a function from the message list
to either a reply or a raised exception's message (`_call_llm` catches any
exception and turns it into an `"Error calling LLM: ..."` string, so all
claims quantify over every oracle).  Python exceptions that escape
`think_and_act` are modelled by the `Except String` error channel of
`runLoop`. -/

/-- One conversation turn (`{"role": ..., "content": ...}`). -/
structure Turn where
  role : String
  content : String
deriving Repr, DecidableEq

/-- `Tool`: a named callable with a description and parameter schema.  The
handler either returns a JSON-serializable value or raises, carrying
`str(e)`. -/
structure Tool where
  name : String
  description : String
  func : List (String × JVal) → Except String JVal
  params : JVal

/-- `Tool.execute`: run the handler inside `try/except`, serializing
success as `{"success": true, "result": ...}` and any exception as
`{"success": false, "error": str(e)}`. -/
def Tool.execute (t : Tool) (kwargs : List (String × JVal)) : String :=
  match t.func kwargs with
  | .ok result => dumps (.jobj [("success", .jbool true), ("result", result)])
  | .error e => dumps (.jobj [("success", .jbool false), ("error", .jstr e)])

/-- `Agent`: the tool registry is the insertion-ordered dict
`{tool.name: tool for tool in tools}`; `max_iterations` is set to 10 in
`__init__`. -/
structure Agent where
  name : String
  role : String
  tools : List (String × Tool)
  memory : List Turn
  maxIterations : Nat
  systemInstructions : String

/-- `Agent.__init__` applied to a tool list: registry built by dict
comprehension, empty memory, `max_iterations = 10`. -/
def mkAgent (name role : String) (tools : List Tool) (systemInstructions : String) : Agent :=
  ⟨name, role, tools.foldl (fun d t => dictInsert d t.name t) [], [],
   10, systemInstructions⟩

/-- `Agent._format_tools`. -/
def formatTools (tools : List (String × Tool)) : String :=
  tools.foldl
    (fun acc p =>
      acc ++ "\n- " ++ p.1 ++ ": " ++ p.2.description ++ "\n  Parameters: "
        ++ dumps p.2.params ++ "\n")
    "Available tools:\n"

/-- The system prompt built at the top of `think_and_act`.  The long-term
memory block injected from `memory.memory_manager` is external state whose
read is wrapped in `try/except: pass`; it is modelled as absent (it only
alters this prompt, which flows solely into the universally quantified
model oracle). -/
def basePrompt (a : Agent) : String :=
  let p :=
    "You are " ++ a.name ++ ", a " ++ a.role ++ " agent.\n"
    ++ "Your goal is to help the user by using the available tools.\n\n"
    ++ formatTools a.tools
    ++ "\n\nCRITICAL: When you need to use a tool, you MUST respond with ONLY a JSON block in this EXACT format:\n"
    ++ "\x7b\"action\": \"tool_name\", \"parameters\": \x7b\"param1\": \"value1\", \"param2\": \"value2\"\x7d\x7d\n\n"
    ++ "DO NOT use Python function syntax like tool_name(param1=\"value1\").\n"
    ++ "DO NOT add extra explanation text before or after the JSON.\n"
    ++ "ONLY output the JSON when using a tool.\n\n"
    ++ "Example - If you need to check the status of a fan:\n"
    ++ "\x7b\"action\": \"get_status\", \"parameters\": \x7b\"entity_id\": \"fan.master_bedroom_fan\"\x7d\x7d\n\n"
    ++ "After receiving the tool result, provide a clear, natural language response to the user.\n\n"
    ++ "Think through the problem step by step. Only output one action at a time.\n"
    ++ "After using a tool, wait for the result before deciding the next action."
  if a.systemInstructions.isEmpty then p
  else p ++ "\n\nAdditional Instructions:\n" ++ a.systemInstructions

/-- `Agent._extract_json_object`'s brace counter, starting at the first
opening brace: depth up on `{`, down on `}`, stopping when it returns to
zero. -/
def braceScan : List Char → Nat → List Char → Option (List Char)
  | [], _, _ => none
  | c :: cs, depth, acc =>
    if c = lbrace then braceScan cs (depth + 1) (c :: acc)
    else if c = rbrace then
      if depth = 1 then some ((c :: acc).reverse)
      else braceScan cs (depth - 1) (c :: acc)
    else braceScan cs depth (c :: acc)

/-- `Agent._extract_json_object`: find the first `{`, take the substring
up to its matching `}` by depth counting, and parse exactly that substring
as JSON; a `json.JSONDecodeError` is caught and yields `None`, as does an
unmatched brace or a missing `{`. -/
def extract_json_object (text : String) : Option JVal :=
  match text.toList.dropWhile (· ≠ lbrace) with
  | [] => none
  | cs =>
    match braceScan cs 0 [] with
    | some jsonChars => loads (String.mk jsonChars)
    | none => none

/-- Parsing strategy 2 of `Agent._parse_action`: the `TOOL:`/`PARAMS:`
block.  Succeeds exactly when the `TOOL:` pattern matches; a missing or
unparsable `PARAMS:` group leaves the parameters empty. -/
def strategyToolParams (response : String) : Option JVal :=
  match searchTool response.toList with
  | none => none
  | some toolName =>
    let params : JVal :=
      match searchParams response.toList with
      | some pstr =>
        match loads pstr with
        | some p => p
        | none => .jobj []
      | none => .jobj []
    some (.jobj [("action", .jstr toolName), ("parameters", params)])

/-- Parsing strategy 3 of `Agent._parse_action`: Python call syntax
`name(key="value", ...)`, accepted only when the first matched name is a
registered tool. -/
def strategyFuncCall (tools : List (String × Tool)) (response : String) : Option JVal :=
  match searchFuncCall response.toList with
  | none => none
  | some (funcName, argsStr) =>
    if (jLookup tools funcName).isSome then
      let params := (findKVs (argsStr.length + 1) argsStr.toList).foldl
        (fun d kv => dictInsert d kv.1 (JVal.jstr kv.2)) []
      some (.jobj [("action", .jstr funcName), ("parameters", .jobj params)])
    else none

/-- `Agent._parse_action`: strategy 1 (brace-matched JSON with a truthy
object carrying an `"action"` key) wins, then the `TOOL:`/`PARAMS:` block,
then call syntax; otherwise no action. -/
def parse_action (tools : List (String × Tool)) (response : String) : Option JVal :=
  let fallback :=
    match strategyToolParams response with
    | some a => some a
    | none => strategyFuncCall tools response
  match extract_json_object response with
  | some v => if v.truthy && v.hasKey "action" then some v else fallback
  | none => fallback

/-- The model oracle: reply or raised-exception message, per call. -/
abbrev Model := List Turn → Except String String

/-- `Agent._call_llm`: any exception from the router becomes the string
`"Error calling LLM: ..."`; this function is total. -/
def callLLM (m : Model) (messages : List Turn) : String :=
  match m messages with
  | .ok s => s
  | .error e => "Error calling LLM: " ++ e

/-- Python `f"{x}"` on the values an action's `"action"` field can hold at
the point it is interpolated (the unhashable cases raise beforehand and
are never formatted; they are mapped to `""` here). -/
def pyStr : Option JVal → String
  | none => "None"
  | some .jnull => "None"
  | some (.jbool true) => "True"
  | some (.jbool false) => "False"
  | some (.jnum n) => toString n
  | some (.jstr s) => s
  | some (.jarr _) => ""
  | some (.jobj _) => ""

/-- `tool_name not in self.tools` raises `TypeError` when the name is an
unhashable value (a decoded JSON list or object). -/
def isUnhashable : Option JVal → Bool
  | some (.jarr _) => true
  | some (.jobj _) => true
  | _ => false

/-- Registry lookup by the parsed action name: only a string can equal a
registry key. -/
def lookupTool (tools : List (String × Tool)) : Option JVal → Option Tool
  | some (.jstr s) => jLookup tools s
  | _ => none

/-- The system message prepended to the transcript on every iteration. -/
def systemTurn (a : Agent) : Turn := ⟨"system", basePrompt a⟩

/-- The body of `think_and_act`'s `for iteration in range(max_iterations)`
loop, with the remaining iteration budget as fuel.  `.error` marks a
Python exception escaping to the caller; `.ok` carries the returned string
and the final transcript. -/
def runLoop (m : Model) (a : Agent) : Nat → List Turn → Except String (String × List Turn)
  | 0, mem => .ok ("Max iterations reached", mem)
  | fuel + 1, mem =>
    let response := callLLM m (systemTurn a :: mem)
    let mem1 := mem ++ [⟨"assistant", response⟩]
    match parse_action a.tools response with
    | none => .ok (response, mem1)
    | some action =>
      let toolName := action.get? "action"
      let params := action.getD "parameters" (.jobj [])
      if isUnhashable toolName then
        .error "TypeError: unhashable type"
      else
        match lookupTool a.tools toolName with
        | none =>
          runLoop m a fuel
            (mem1 ++ [⟨"user", "Error: Tool '" ++ pyStr toolName ++ "' not found"⟩])
        | some tool =>
          match params with
          | .jobj kwargs =>
            runLoop m a fuel
              (mem1 ++ [⟨"user", "Tool result: " ++ tool.execute kwargs⟩])
          | _ => .error "TypeError: argument after ** must be a mapping"

/-- `Agent.think_and_act`: append the user turn, then run the bounded
loop. -/
def think_and_act (m : Model) (a : Agent) (userRequest : String) :
    Except String (String × List Turn) :=
  runLoop m a a.maxIterations (a.memory ++ [⟨"user", userRequest⟩])

/-! ### The LLM router (`llm/llm_router.py`)

`_call_provider` is a network call; it is modelled as an oracle
`ProviderEnv` mapping a provider name to a reply or a raised exception's
`str(e)`.  `chat` is instrumented to also return the list of providers it
attempted, in order, so that the attempt-order claims are statable. -/

/-- The provider oracle for one `chat` call. -/
abbrev ProviderEnv := String → Except String String

/-- The attempt order built by `chat`: the resolved primary first, then
the configured failover providers with the primary filtered out (the only
deduplication the code performs). -/
def buildOrder (primary : String) (failover : List String) : List String :=
  primary :: failover.filter (· ≠ primary)

/-- The provider loop of `LLMRouter.chat`: try each provider, return the
first success, remember the last error; when the list is exhausted return
the error string (Python formats the initial `last_error = None` as
`"None"`). -/
def chatGo (env : ProviderEnv) : List String → Option String → String × List String
  | [], lastError =>
    ("Error: All LLM providers failed. Last error: " ++
       (match lastError with
        | some e => e
        | none => "None"), [])
  | p :: ps, _lastError =>
    match env p with
    | .ok r => (r, [p])
    | .error e =>
      let res := chatGo env ps (some e)
      (res.1, p :: res.2)

/-- `LLMRouter.chat` with failover, after resolving
`primary = provider or llm_config.get_default_provider()` and
`failover = llm_config.get_failover_order()`: the returned pair is the
reply string and the ordered list of providers attempted.  The function is
total: a fully-failed call returns an error string, never raising. -/
def chat (env : ProviderEnv) (primary : String) (failover : List String) :
    String × List String :=
  chatGo env (buildOrder primary failover) none

/-! ### The sequential orchestrator (`agents/planning_agent.py`) -/

/-- The analysis dict built by `_parse_analysis`: `user_request` and
`llm_analysis` are always the strings passed in; the other fields hold
whatever JSON values the plan supplied. -/
structure Analysis where
  user_request : String
  detected_agents : JVal
  execution_steps : JVal
  reasoning : JVal
  llm_analysis : String

/-- The fallback execution step: fixed step number, agent and task, with
the raw user request as the context. -/
def fallbackStep (user_request : String) : JVal :=
  .jobj [("step", .jnum 1), ("agent", .jstr "home"),
         ("task", .jstr "Handle user request"), ("context", .jstr user_request)]

/-- `LLMSequentialOrchestrator._parse_analysis`: search the reply for a
greedy `\{.*\}` match; no match leaves the (empty) initial
`execution_steps` untouched; a match that fails `json.loads` raises into
the `except` branch, which installs the single fallback step; a parsed
plan's `execution_steps` are used when truthy, else the fallback step. -/
def parse_analysis (llm_response user_request : String) : Analysis :=
  match searchBraceGreedy llm_response.toList with
  | none => ⟨user_request, .jarr [], .jarr [], .jstr "", llm_response⟩
  | some g =>
    match loads (String.mk g) with
    | none =>
      ⟨user_request, .jarr [], .jarr [fallbackStep user_request], .jstr "",
       llm_response⟩
    | some llm_plan =>
      let reasoning := llm_plan.getD "reasoning" (.jstr "")
      let detected := llm_plan.getD "agents_needed" (.jarr [])
      let valid_steps := llm_plan.getD "execution_steps" (.jarr [])
      let steps :=
        if valid_steps.truthy then valid_steps
        else .jarr [fallbackStep user_request]
      ⟨user_request, detected, steps, reasoning, llm_response⟩

/-- `LLMSequentialOrchestrator.analyze_request`: the method builds a
planning prompt and obtains a reply through `_call_ollama`, which never
raises (exceptions become an error-text reply); the returned analysis is
exactly `_parse_analysis(reply, user_request)`, so the external LLM call
is modelled by its reply string. -/
def analyze_request (plannerReply user_request : String) : Analysis :=
  parse_analysis plannerReply user_request

/-- One record of `CustomAgentManager.custom_agents` (keyed and carrying
its own id, as `create_agent` stores it). -/
structure CustomAgent where
  id : String
  name : String
deriving Repr, DecidableEq

/-- The outcome of the step's agent lookup: a built-in agent by registry
key, or a custom agent by its resolved id. -/
inductive ResolvedAgent where
  | builtin (id : String)
  | custom (id : String)
deriving Repr, DecidableEq

/-- Python `str.lower` over the ASCII range. -/
def pyLower (s : String) : String := String.mk (s.toList.map Char.toLower)

/-- Python `str.strip()`: remove leading and trailing whitespace. -/
def pyStrip (s : String) : String :=
  String.mk (((s.toList.dropWhile isSpaceChar).reverse.dropWhile isSpaceChar).reverse)

/-- Python `needle in hay` on strings: contiguous substring test. -/
def isSubstrOf (needle : List Char) : List Char → Bool
  | [] => needle.isEmpty
  | c :: t => (matchLit needle (c :: t)).isSome || isSubstrOf needle t

/-- `CustomAgentManager.get_agent`: lookup by id key
(`custom_agents.values()` iterate in insertion order, which the list
order models). -/
def get_agent (customs : List CustomAgent) (agentId : String) : Option CustomAgent :=
  customs.find? (·.id = agentId)

/-- The per-step agent lookup of
`LLMSequentialOrchestrator.execute_sequential_plan` (strategies 1–5):
extract an 8-hex-digit parenthesised id if present, then try the built-in
registry, the custom registry by id, exact case-insensitive name match
(against both the processed and the original reference), and finally
partial name containment.  `none` models the `ValueError` branch that
records the step as failed. -/
def resolveAgent (builtins : List String) (mgr : Option (List CustomAgent))
    (ref : String) : Option ResolvedAgent :=
  let original := ref
  let agentId :=
    match searchParenId ref.toList with
    | some i => i
    | none => ref
  if builtins.contains agentId then some (.builtin agentId)
  else
    match mgr with
    | none => none
    | some customs =>
      match get_agent customs agentId with
      | some ca => some (.custom ca.id)
      | none =>
        let agentNameLower := pyStrip (pyLower agentId)
        let originalNameLower := pyStrip (pyLower original)
        match customs.find? (fun ca =>
            let n := pyStrip (pyLower ca.name)
            n = agentNameLower || n = originalNameLower) with
        | some ca => some (.custom ca.id)
        | none =>
          match customs.find? (fun ca =>
              let n := pyStrip (pyLower ca.name)
              isSubstrOf n.toList originalNameLower.toList
                || isSubstrOf originalNameLower.toList n.toList) with
          | some ca => some (.custom ca.id)
          | none => none

/-! ### Observers and hypothesis predicates for the claims -/

/-- The string a `think_and_act` call handed back to its caller, when it
returned rather than raised. -/
def returnedString (r : Except String (String × List Turn)) : Option String :=
  r.toOption.map Prod.fst

/-- A model reply is loop-safe when any action parsed from it has a
hashable `"action"` value and, when that value names a registered tool,
carries a JSON object (or nothing) in `"parameters"` — the two conditions
under which the loop body cannot raise. -/
def GoodResponse (tools : List (String × Tool)) (r : String) : Prop :=
  ∀ v, parse_action tools r = some v →
    isUnhashable (v.get? "action") = false ∧
    ∀ t, lookupTool tools (v.get? "action") = some t →
      ∃ kwargs, v.getD "parameters" (.jobj []) = .jobj kwargs

/-- A model every one of whose replies is loop-safe for the agent's
registry. -/
def GoodModel (m : Model) (tools : List (String × Tool)) : Prop :=
  ∀ msgs, GoodResponse tools (callLLM m msgs)

/-- A model every one of whose replies parses to an action naming a
registered tool with a JSON-object parameter payload, so that every
iteration executes a tool and the loop never exits early. -/
def AlwaysActs (m : Model) (a : Agent) : Prop :=
  ∀ msgs, ∃ v t kwargs,
    parse_action a.tools (callLLM m msgs) = some v ∧
    lookupTool a.tools (v.get? "action") = some t ∧
    v.getD "parameters" (.jobj []) = .jobj kwargs

/-- Modelled from the spec's words, for comparison with `chat`: the
providers a failover call should attempt — walk the list in order and stop
at (and include) the first provider that succeeds. -/
def specAttempts (env : ProviderEnv) : List String → List String
  | [] => []
  | p :: ps =>
    match env p with
    | .ok _ => [p]
    | .error _ => p :: specAttempts env ps

/-! ### Concrete fixtures for witnesses and counterexamples -/

/-- A registered tool whose handler returns `None`. -/
def toolT : Tool := ⟨"t", "does nothing", fun _ => .ok .jnull, .jobj []⟩

/-- A registered tool whose handler always raises `ValueError("boom")`. -/
def toolBoom : Tool := ⟨"boom", "always raises", fun _ => .error "boom", .jobj []⟩

/-- A registered tool for the call-syntax fixtures. -/
def toolGood : Tool := ⟨"good", "registered", fun _ => .ok .jnull, .jobj []⟩

/-- An agent with the single tool `t`. -/
def agentT : Agent := mkAgent "A" "tester" [toolT] ""

/-- An agent with the single (raising) tool `boom`. -/
def agentBoom : Agent := mkAgent "B" "tester" [toolBoom] ""

/-- A model that always asks for tool `t` with an empty parameter
object. -/
def modelValid : Model :=
  fun _ => .ok "\x7b\"action\": \"t\", \"parameters\": \x7b\x7d\x7d"

/-- A model that always asks for tool `t` with the (non-mapping)
parameter payload `5`. -/
def modelBadParams : Model :=
  fun _ => .ok "\x7b\"action\": \"t\", \"parameters\": 5\x7d"

/-- A model that always asks for the unregistered tool `ghost`. -/
def modelGhost : Model :=
  fun _ => .ok "\x7b\"action\": \"ghost\", \"parameters\": \x7b\x7d\x7d"

/-- A model that always asks for tool `boom` with an empty parameter
object. -/
def modelBoom : Model :=
  fun _ => .ok "\x7b\"action\": \"boom\", \"parameters\": \x7b\x7d\x7d"

/-- A provider environment in which every provider raises with message
`boom`. -/
def envAllFail : ProviderEnv := fun _ => .error "boom"

/-! ### Claim theorems -/

/-- C7: the response `prefix {"action":"x","parameters":{"a":{"b":1}}} suffix`
(a JSON action embedded in prose, with nested braces) parses, through the
depth-tracking brace extraction of `_extract_json_object`, to the action
`x` with parameters `{a: {b: 1}}`. -/
theorem c7_brace_robustness :
    parse_action []
      "prefix \x7b\"action\":\"x\",\"parameters\":\x7b\"a\":\x7b\"b\":1\x7d\x7d\x7d suffix"
      = some (.jobj [("action", .jstr "x"),
          ("parameters", .jobj [("a", .jobj [("b", .jnum 1)])])]) := by
  rfl

/-- C6: when brace extraction yields nothing (malformed JSON is treated as
"no JSON found", without raising) and the response carries a `TOOL: foo`
and `PARAMS: {"k":"v"}` block, `_parse_action` falls through to strategy 2
and returns `{action: "foo", parameters: {"k": "v"}}`. -/
theorem c6_malformed_json_fallback (tools : List (String × Tool)) (r : String)
    (h1 : extract_json_object r = none)
    (h2 : searchTool r.toList = some "foo")
    (h3 : searchParams r.toList = some "\x7b\"k\":\"v\"\x7d") :
    parse_action tools r
      = some (.jobj [("action", .jstr "foo"),
          ("parameters", .jobj [("k", .jstr "v")])]) := by
  simp only [parse_action, strategyToolParams, h1, h2, h3]
  rfl

/-- Witness for C6 at the concrete response
`{oops} TOOL: foo\nPARAMS: {"k":"v"}`. -/
theorem c6_witness :
    parse_action []
      "\x7boops\x7d TOOL: foo\nPARAMS: \x7b\"k\":\"v\"\x7d"
      = some (.jobj [("action", .jstr "foo"),
          ("parameters", .jobj [("k", .jstr "v")])]) :=
  c6_malformed_json_fallback [] _ rfl rfl rfl

/-- C10: strategy 3 examines only the first `name(args)` match of the
response; when that first name is not a registered tool, `_parse_action`
returns the no-action sentinel even if a later substring is a well-formed
call to a registered tool. -/
theorem c10_first_call_only (tools : List (String × Tool)) (r : String)
    (name args : String)
    (h1 : extract_json_object r = none)
    (h2 : searchTool r.toList = none)
    (h3 : searchFuncCall r.toList = some (name, args))
    (h4 : jLookup tools name = none) :
    parse_action tools r = none := by
  simp only [parse_action, strategyToolParams, strategyFuncCall, h1, h2, h3, h4]
  rfl

/-- Witness for C10: with only `good` registered, the response
`bad(x="1") good(y="2")` parses to no action (its first call names the
unregistered `bad`), although the later `good(y="2")` alone would parse. -/
theorem c10_witness :
    parse_action [("good", toolGood)] "bad(x=\"1\") good(y=\"2\")" = none ∧
    parse_action [("good", toolGood)] "good(y=\"2\")"
      = some (.jobj [("action", .jstr "good"),
          ("parameters", .jobj [("y", .jstr "2")])]) :=
  ⟨c10_first_call_only [("good", toolGood)] _ "bad" "x=\"1\"" rfl rfl rfl rfl, rfl⟩

/-- C3: the three parsing strategies are tried in strict order.  When the
brace-matched JSON object passes strategy 1's guard (truthy, with an
`"action"` key) it is returned as-is, whatever else the response contains;
when strategy 1 yields nothing, a successful `TOOL:`/`PARAMS:` block wins;
and only when both yield nothing is the call-syntax strategy consulted. -/
theorem c3_parser_precedence (tools : List (String × Tool)) (r : String) :
    (∀ v, extract_json_object r = some v →
       (v.truthy && v.hasKey "action") = true →
       parse_action tools r = some v) ∧
    ((∀ v, extract_json_object r = some v →
        (v.truthy && v.hasKey "action") = false) →
      ∀ a, strategyToolParams r = some a → parse_action tools r = some a) ∧
    ((∀ v, extract_json_object r = some v →
        (v.truthy && v.hasKey "action") = false) →
      strategyToolParams r = none →
      parse_action tools r = strategyFuncCall tools r) := by
  refine ⟨fun v hv hc => ?_, fun hno a hs => ?_, fun hno hs => ?_⟩
  · simp [parse_action, hv, hc]
  · cases he : extract_json_object r with
    | none => simp [parse_action, he, hs]
    | some v => simp [parse_action, he, hno v he, hs]
  · cases he : extract_json_object r with
    | none => simp [parse_action, he, hs]
    | some v => simp [parse_action, he, hno v he, hs]

/-- Witness for C3 at a response containing both a valid JSON action and
a matching `TOOL:`/`PARAMS:` block: the JSON-derived action wins while the
competing strategy-2 parse exists and differs. -/
theorem c3_witness :
    parse_action []
      "\x7b\"action\": \"js\", \"parameters\": \x7b\x7d\x7d TOOL: other\nPARAMS: \x7b\"a\":\"b\"\x7d"
      = some (.jobj [("action", .jstr "js"), ("parameters", .jobj [])]) ∧
    strategyToolParams
      "\x7b\"action\": \"js\", \"parameters\": \x7b\x7d\x7d TOOL: other\nPARAMS: \x7b\"a\":\"b\"\x7d"
      = some (.jobj [("action", .jstr "other"),
          ("parameters", .jobj [("a", .jstr "b")])]) :=
  ⟨(c3_parser_precedence [] _).1 _ rfl rfl, rfl⟩

/-- C8: an action naming an unregistered tool does not raise and does not
terminate the loop: the iteration appends the assistant turn and the
`Error: Tool '<name>' not found` turn to the transcript and re-enters the
loop with exactly one unit of the iteration budget consumed. -/
theorem c8_unknown_tool (m : Model) (a : Agent) (fuel : Nat) (mem : List Turn)
    (r : String) (v : JVal) (name : String)
    (hr : callLLM m (systemTurn a :: mem) = r)
    (hp : parse_action a.tools r = some v)
    (ha : v.get? "action" = some (.jstr name))
    (hl : jLookup a.tools name = none) :
    runLoop m a (fuel + 1) mem =
      runLoop m a fuel
        (mem ++ [⟨"assistant", r⟩,
                 ⟨"user", "Error: Tool '" ++ name ++ "' not found"⟩]) := by
  simp [runLoop, hr, hp, ha, isUnhashable, lookupTool, hl, pyStr]

/-- Witness for C8: the agent with only tool `t`, a model asking for the
unregistered `ghost`, one unit of fuel and an empty transcript. -/
theorem c8_witness :
    runLoop modelGhost agentT 1 [] =
      runLoop modelGhost agentT 0
        ([] ++ [⟨"assistant", "\x7b\"action\": \"ghost\", \"parameters\": \x7b\x7d\x7d"⟩,
                ⟨"user", "Error: Tool 'ghost' not found"⟩]) :=
  c8_unknown_tool modelGhost agentT 0 [] _
    (.jobj [("action", .jstr "ghost"), ("parameters", .jobj [])]) "ghost"
    rfl rfl rfl rfl

/-- C9: for a step agent reference carrying a parenthesised 8-hex id, the
layered lookup resolves by the extracted id — built-in registry first,
then the custom registry by id — before any exact- or partial-name match
can fire; the conclusion does not depend on the custom agents' names. -/
theorem c9_agent_resolution_precedence (builtins : List String)
    (customs : List CustomAgent) (ref id : String)
    (hid : searchParenId ref.toList = some id) :
    (builtins.contains id = true →
       resolveAgent builtins (some customs) ref = some (.builtin id)) ∧
    (builtins.contains id = false → ∀ ca, get_agent customs id = some ca →
       resolveAgent builtins (some customs) ref = some (.custom ca.id)) := by
  have hid' : searchParenId ref.data = some id := hid
  constructor
  · intro hb
    have hb' : id ∈ builtins := List.mem_of_elem_eq_true hb
    simp [resolveAgent, hid', hb']
  · intro hb ca hca
    have hb' : id ∉ builtins := by
      intro hmem
      have h2 : List.elem id builtins = false := hb
      rw [List.elem_eq_true_of_mem hmem] at h2
      cases h2
    simp [resolveAgent, hid', hb', hca]

/-- Witness for C9: `"Widgets (a1b2c3d4)"` resolves to the custom agent
with id `a1b2c3d4` even though another custom agent, listed first, is an
exact case-insensitive name match for the whole reference. -/
theorem c9_witness :
    resolveAgent []
      (some [⟨"zzzz9999", "widgets (a1b2c3d4)"⟩, ⟨"a1b2c3d4", "Zeta"⟩])
      "Widgets (a1b2c3d4)" = some (.custom "a1b2c3d4") :=
  (c9_agent_resolution_precedence []
      [⟨"zzzz9999", "widgets (a1b2c3d4)"⟩, ⟨"a1b2c3d4", "Zeta"⟩]
      "Widgets (a1b2c3d4)" "a1b2c3d4" rfl).2 rfl ⟨"a1b2c3d4", "Zeta"⟩ rfl

/-- C4, counterexample: a planning reply with no brace-delimited substring
at all (`"this is not json"`) leaves the plan with zero execution steps —
not the single-step fallback plan the claim demands. -/
theorem c4_counterexample :
    (analyze_request "this is not json" "turn on the lights").execution_steps
      = .jarr [] ∧
    ∀ s, JVal.jarr ([] : List JVal) ≠ .jarr [s] := by
  refine ⟨rfl, fun s h => ?_⟩
  injection h with h'
  simp at h'

/-- C4, amended: when the reply has no `{...}` match the plan keeps zero
execution steps; when it has one whose content fails `json.loads`, the
plan is exactly the single fallback step with agent `"home"`, the fixed
task `"Handle user request"`, and the original request, verbatim, in the
`context` field (not the `task` field). -/
theorem c4_fallback_amended (reply req : String) :
    (searchBraceGreedy reply.toList = none →
       (analyze_request reply req).execution_steps = .jarr []) ∧
    (∀ g, searchBraceGreedy reply.toList = some g →
       loads (String.mk g) = none →
       (analyze_request reply req).execution_steps = .jarr [fallbackStep req] ∧
       fallbackStep req = .jobj [("step", .jnum 1), ("agent", .jstr "home"),
         ("task", .jstr "Handle user request"), ("context", .jstr req)]) := by
  constructor
  · intro h
    have h' : searchBraceGreedy reply.data = none := h
    simp [analyze_request, parse_analysis, h']
  · intro g hg hl
    have hg' : searchBraceGreedy reply.data = some g := hg
    exact ⟨by simp [analyze_request, parse_analysis, hg', hl], rfl⟩

/-- Witness for C4's amended claim at the reply `{garbage}`. -/
theorem c4_witness :
    (analyze_request "\x7bgarbage\x7d" "turn on the lights").execution_steps
      = .jarr [fallbackStep "turn on the lights"] ∧
    fallbackStep "turn on the lights"
      = .jobj [("step", .jnum 1), ("agent", .jstr "home"),
        ("task", .jstr "Handle user request"),
        ("context", .jstr "turn on the lights")] :=
  (c4_fallback_amended "\x7bgarbage\x7d" "turn on the lights").2
    ("\x7bgarbage\x7d".toList) rfl rfl

/-- The attempts recorded by the provider loop are exactly the spec-side
attempt list: each provider in order, stopping at the first success. -/
theorem chatGo_attempts (env : ProviderEnv) :
    ∀ (order : List String) (last : Option String),
      (chatGo env order last).2 = specAttempts env order := by
  intro order
  induction order with
  | nil => intro last; rfl
  | cons p ps ih =>
    intro last
    cases hp : env p with
    | ok r => simp [chatGo, specAttempts, hp]
    | error e => simp [chatGo, specAttempts, hp, ih]

/-- The spec attempt list is a sublist of the order it walks. -/
theorem specAttempts_sublist (env : ProviderEnv) :
    ∀ order : List String, List.Sublist (specAttempts env order) order := by
  intro order
  induction order with
  | nil => exact List.Sublist.refl []
  | cons p ps ih =>
    cases hp : env p with
    | ok r =>
      simp only [specAttempts, hp]
      exact List.Sublist.cons₂ p (List.nil_sublist ps)
    | error e =>
      simp only [specAttempts, hp]
      exact List.Sublist.cons₂ p ih

/-- When every provider in a nonempty order fails, the loop's reply is the
error string built from the message of the order's last provider. -/
theorem chatGo_all_fail (env : ProviderEnv) (msgs : String → String) :
    ∀ (order : List String) (last : Option String),
      order ≠ [] → (∀ q ∈ order, env q = .error (msgs q)) →
      (chatGo env order last).1 =
        "Error: All LLM providers failed. Last error: " ++ msgs (order.getLastD "") := by
  intro order
  induction order with
  | nil => intro last hne; exact absurd rfl hne
  | cons p ps ih =>
    intro last _ hall
    have hp : env p = .error (msgs p) := hall p (List.mem_cons_self p ps)
    cases ps with
    | nil => simp [chatGo, hp, List.getLastD]
    | cons q qs =>
      have hrec := ih (some (msgs p)) (by simp)
        (fun x hx => hall x (List.mem_cons_of_mem p hx))
      simp only [chatGo, hp]
      exact hrec

/-- C5, counterexample: with primary `p` and the configured failover list
`["q", "q"]` (the code deduplicates only against the primary), a call in
which every provider raises attempts provider `q` twice — the claim's
"each provider attempted at most once per call" fails. -/
theorem c5_counterexample :
    (chat envAllFail "p" ["q", "q"]).2 = ["p", "q", "q"] ∧
    ¬ List.count "q" ["p", "q", "q"] ≤ 1 := by
  exact ⟨rfl, by decide⟩

/-- C5, amended: `chat` attempts the resolved primary first and then the
configured failover entries in order with the primary filtered out,
stopping at the first success; providers are deduplicated only against the
primary, so each provider is attempted at most once whenever the failover
list itself is duplicate-free; and when every provider in the attempt list
raises, `chat` returns (never raises) the error string embedding the last
attempted provider's failure message. -/
theorem c5_failover_amended (env : ProviderEnv) (p : String) (f : List String) :
    (chat env p f).2 = specAttempts env (buildOrder p f) ∧
    (f.Nodup → ((chat env p f).2).Nodup) ∧
    (∀ msgs : String → String, (∀ q, env q = .error (msgs q)) →
      (chat env p f).1 =
        "Error: All LLM providers failed. Last error: "
          ++ msgs ((buildOrder p f).getLastD "")) := by
  refine ⟨chatGo_attempts env _ none, fun hnd => ?_, fun msgs hall => ?_⟩
  · have horder : (buildOrder p f).Nodup := by
      refine List.Nodup.cons ?_ (List.Nodup.filter _ hnd)
      intro hmem
      have := List.of_mem_filter hmem
      simp at this
    have hsub := specAttempts_sublist env (buildOrder p f)
    have h1 : (chat env p f).2 = specAttempts env (buildOrder p f) :=
      chatGo_attempts env _ none
    rw [h1]
    exact List.Nodup.sublist hsub horder
  · exact chatGo_all_fail env msgs (buildOrder p f) none (by simp [buildOrder])
      (fun q _ => hall q)

/-- Witness for C5's amended claim: primary `a`, failover `["b"]`, every
provider raising `boom`. -/
theorem c5_witness :
    (chat envAllFail "a" ["b"]).2 = specAttempts envAllFail (buildOrder "a" ["b"]) ∧
    ((chat envAllFail "a" ["b"]).2).Nodup ∧
    (chat envAllFail "a" ["b"]).1 =
      "Error: All LLM providers failed. Last error: boom" := by
  obtain ⟨h1, h2, h3⟩ := c5_failover_amended envAllFail "a" ["b"]
  refine ⟨h1, h2 (by decide), ?_⟩
  rw [h3 (fun _ => "boom") (fun q => rfl)]
  rfl

/-- A successful registry lookup means the action name was a string, and
strings are hashable. -/
theorem lookup_not_unhashable (tools : List (String × Tool)) (o : Option JVal)
    (t : Tool) (h : lookupTool tools o = some t) : isUnhashable o = false := by
  cases o with
  | none => cases h
  | some v => cases v <;> first | rfl | cases h

/-- One loop iteration that parses an action naming a registered tool with
a JSON-object payload executes the tool, appends the assistant turn and
the serialized tool result, and re-enters the loop with one unit less
fuel. -/
theorem runLoop_step_exec (m : Model) (a : Agent) (fuel : Nat) (mem : List Turn)
    (v : JVal) (t : Tool) (kwargs : List (String × JVal))
    (hp : parse_action a.tools (callLLM m (systemTurn a :: mem)) = some v)
    (hh : isUnhashable (v.get? "action") = false)
    (hl : lookupTool a.tools (v.get? "action") = some t)
    (hk : v.getD "parameters" (.jobj []) = .jobj kwargs) :
    runLoop m a (fuel + 1) mem =
      runLoop m a fuel
        (mem ++ [⟨"assistant", callLLM m (systemTurn a :: mem)⟩,
                 ⟨"user", "Tool result: " ++ t.execute kwargs⟩]) := by
  simp [runLoop, hp, hh, hl, hk]

/-- One loop iteration whose parsed action names no registered (hashable)
tool appends the error turn and re-enters the loop with one unit less
fuel. -/
theorem runLoop_step_unknown (m : Model) (a : Agent) (fuel : Nat) (mem : List Turn)
    (v : JVal)
    (hp : parse_action a.tools (callLLM m (systemTurn a :: mem)) = some v)
    (hh : isUnhashable (v.get? "action") = false)
    (hl : lookupTool a.tools (v.get? "action") = none) :
    runLoop m a (fuel + 1) mem =
      runLoop m a fuel
        (mem ++ [⟨"assistant", callLLM m (systemTurn a :: mem)⟩,
                 ⟨"user", "Error: Tool '" ++ pyStr (v.get? "action") ++ "' not found"⟩]) := by
  simp [runLoop, hp, hh, hl]

/-- Under a model that always produces a registered action, the loop runs
its full fuel, each iteration adding exactly two turns, and returns the
capital-M sentinel. -/
theorem runLoop_always_acts (m : Model) (a : Agent) (hm : AlwaysActs m a) :
    ∀ (fuel : Nat) (mem : List Turn), ∃ mem',
      runLoop m a fuel mem = .ok ("Max iterations reached", mem') ∧
      mem'.length = mem.length + 2 * fuel := by
  intro fuel
  induction fuel with
  | zero => intro mem; exact ⟨mem, rfl, by omega⟩
  | succ n ih =>
    intro mem
    obtain ⟨v, t, kwargs, hp, hl, hk⟩ := hm (systemTurn a :: mem)
    have hh := lookup_not_unhashable a.tools _ t hl
    have hstep := runLoop_step_exec m a n mem v t kwargs hp hh hl hk
    obtain ⟨mem', heq, hlen⟩ :=
      ih (mem ++ [⟨"assistant", callLLM m (systemTurn a :: mem)⟩,
                  ⟨"user", "Tool result: " ++ t.execute kwargs⟩])
    refine ⟨mem', ?_, ?_⟩
    · rw [hstep]; exact heq
    · simp [List.length_append] at hlen
      omega

/-- Under a loop-safe model, the loop always returns `.ok` — no Python
exception reaches the caller. -/
theorem runLoop_good_total (m : Model) (a : Agent) (hg : GoodModel m a.tools) :
    ∀ (fuel : Nat) (mem : List Turn), ∃ s mem',
      runLoop m a fuel mem = .ok (s, mem') := by
  intro fuel
  induction fuel with
  | zero => intro mem; exact ⟨_, _, rfl⟩
  | succ n ih =>
    intro mem
    cases hp : parse_action a.tools (callLLM m (systemTurn a :: mem)) with
    | none =>
      refine ⟨callLLM m (systemTurn a :: mem),
        mem ++ [⟨"assistant", callLLM m (systemTurn a :: mem)⟩], ?_⟩
      simp [runLoop, hp]
    | some v =>
      obtain ⟨hh, hparams⟩ := hg (systemTurn a :: mem) v hp
      cases hl : lookupTool a.tools (v.get? "action") with
      | none =>
        have hstep := runLoop_step_unknown m a n mem v hp hh hl
        obtain ⟨s, mem', h⟩ := ih _
        exact ⟨s, mem', by rw [hstep]; exact h⟩
      | some t =>
        obtain ⟨kwargs, hk⟩ := hparams t hl
        have hstep := runLoop_step_exec m a n mem v t kwargs hp hh hl hk
        obtain ⟨s, mem', h⟩ := ih _
        exact ⟨s, mem', by rw [hstep]; exact h⟩

/-- C1, counterexample: with tool `t` registered and the model replying
`{"action": "t", "parameters": 5}` — a possible behaviour of the model —
`think_and_act` raises a `TypeError` to its caller (Python's
`execute(**params)` with a non-mapping), so the claim's "for every
behaviour of the model ... never raises" is false. -/
theorem c1_counterexample :
    think_and_act modelBadParams agentT "go"
      = .error "TypeError: argument after ** must be a mapping" := rfl

/-- C1, amended: restricted to model behaviours whose parsed actions have
a hashable `"action"` value and, when that value names a registered tool,
a JSON-object parameter payload, `think_and_act` always returns a string
and never raises; a tool-handler exception is converted by `Tool.execute`
into the serialized `{"success": false, "error": <message>}`, which such
an iteration appends to the transcript (prefixed `Tool result: `) before
continuing to the next iteration. -/
theorem c1_no_raise_amended (m : Model) (a : Agent) (req : String)
    (hg : GoodModel m a.tools) :
    (∃ s mem, think_and_act m a req = .ok (s, mem)) ∧
    (∀ (t : Tool) (kwargs : List (String × JVal)) (e : String),
       t.func kwargs = .error e →
       t.execute kwargs
         = dumps (.jobj [("success", .jbool false), ("error", .jstr e)])) ∧
    (∀ (fuel : Nat) (mem : List Turn) (v : JVal) (t : Tool)
       (kwargs : List (String × JVal)),
       parse_action a.tools (callLLM m (systemTurn a :: mem)) = some v →
       isUnhashable (v.get? "action") = false →
       lookupTool a.tools (v.get? "action") = some t →
       v.getD "parameters" (.jobj []) = .jobj kwargs →
       runLoop m a (fuel + 1) mem =
         runLoop m a fuel
           (mem ++ [⟨"assistant", callLLM m (systemTurn a :: mem)⟩,
                    ⟨"user", "Tool result: " ++ t.execute kwargs⟩])) := by
  refine ⟨?_, ?_, ?_⟩
  · exact runLoop_good_total m a hg a.maxIterations (a.memory ++ [⟨"user", req⟩])
  · intro t kwargs e he
    simp [Tool.execute, he]
  · intro fuel mem v t kwargs hp hh hl hk
    exact runLoop_step_exec m a fuel mem v t kwargs hp hh hl hk

/-- Witness for C1's amended claim: the agent whose only tool raises
`ValueError("boom")` and the model that always invokes it. -/
theorem c1_witness :
    (∃ s mem, think_and_act modelBoom agentBoom "go" = .ok (s, mem)) ∧
    toolBoom.execute []
      = dumps (.jobj [("success", .jbool false), ("error", .jstr "boom")]) ∧
    runLoop modelBoom agentBoom 1 [] =
      runLoop modelBoom agentBoom 0
        ([] ++ [⟨"assistant", "\x7b\"action\": \"boom\", \"parameters\": \x7b\x7d\x7d"⟩,
                ⟨"user", "Tool result: " ++ toolBoom.execute []⟩]) := by
  have hg : GoodModel modelBoom agentBoom.tools := by
    intro msgs v hv
    have hv2 : some (JVal.jobj [("action", .jstr "boom"), ("parameters", .jobj [])])
        = some v := hv
    injection hv2 with h
    subst h
    exact ⟨rfl, fun t _ => ⟨[], rfl⟩⟩
  obtain ⟨h1, h2, h3⟩ := c1_no_raise_amended modelBoom agentBoom "go" hg
  exact ⟨h1, h2 toolBoom [] "boom" rfl,
    h3 0 [] (.jobj [("action", .jstr "boom"), ("parameters", .jobj [])])
      toolBoom [] rfl rfl rfl rfl⟩

/-- C2, counterexample: under a model that always returns a valid
registered action, the loop's sentinel is `"Max iterations reached"`
(capital M), not the claimed string `"max iterations reached"`. -/
theorem c2_counterexample :
    returnedString (think_and_act modelValid agentT "go")
      = some "Max iterations reached" ∧
    "Max iterations reached" ≠ "max iterations reached" :=
  ⟨rfl, by decide⟩

/-- C2, amended: for every model that on every call returns a response
parsing to a valid registered action, `think_and_act` performs exactly 10
iterations — the final transcript gains exactly `1 + 2 * 10` turns over
the initial memory — and then returns the fixed sentinel string
`"Max iterations reached"` (capitalized as in the code) rather than
raising. -/
theorem c2_iteration_cap_amended (m : Model) (a : Agent) (req : String)
    (hm : AlwaysActs m a) (hmax : a.maxIterations = 10) :
    ∃ mem, think_and_act m a req = .ok ("Max iterations reached", mem) ∧
      mem.length = a.memory.length + 1 + 2 * 10 := by
  obtain ⟨mem', heq, hlen⟩ :=
    runLoop_always_acts m a hm 10 (a.memory ++ [⟨"user", req⟩])
  refine ⟨mem', ?_, ?_⟩
  · rw [think_and_act, hmax]; exact heq
  · simp [List.length_append] at hlen
    omega

/-- Witness for C2's amended claim: the agent with tool `t` and the model
that always invokes it. -/
theorem c2_witness :
    ∃ mem, think_and_act modelValid agentT "go"
        = .ok ("Max iterations reached", mem) ∧
      mem.length = agentT.memory.length + 1 + 2 * 10 := by
  have hm : AlwaysActs modelValid agentT := by
    intro msgs
    exact ⟨.jobj [("action", .jstr "t"), ("parameters", .jobj [])], toolT, [],
      rfl, rfl, rfl⟩
  exact c2_iteration_cap_amended modelValid agentT "go" hm rfl

end AgentSphere
